import Mathlib

/-!
Shallow embedding of the first-person camera controller
(`src/camera/first_person.rs`) of the kiss3d rendering toolkit.

Machine `f32` arithmetic is idealised as exact real arithmetic; the
nalgebra types are embedded as follows:
  * `Vector3<f32>` / `Point3<f32>`  → `Vec3` (a record of three reals);
  * `Vector2<f32>`                  → `Vec2`;
  * `UnitQuaternion<f32>`           → `Quat` (Hamilton product, conjugate);
  * `Matrix4<f32>` / `Matrix3`      → `Matrix (Fin 4/3) (Fin 4/3) ℝ`;
  * `f32::atan2`                    → `Complex.arg` of the point `(x, y)`;
  * `acos`                          → `Real.arccos`.
-/

noncomputable section

open Real

/-- Three-dimensional vector / point (embedding of `Vector3<f32>` and
`Point3<f32>`; nalgebra rotations act on the coordinates of both alike). -/
@[ext]
structure Vec3 where
  x : ℝ
  y : ℝ
  z : ℝ

namespace Vec3

instance : Zero Vec3 := ⟨⟨0, 0, 0⟩⟩

instance : Add Vec3 := ⟨fun a b => ⟨a.x + b.x, a.y + b.y, a.z + b.z⟩⟩

instance : Sub Vec3 := ⟨fun a b => ⟨a.x - b.x, a.y - b.y, a.z - b.z⟩⟩

instance : Neg Vec3 := ⟨fun a => ⟨-a.x, -a.y, -a.z⟩⟩

instance : SMul ℝ Vec3 := ⟨fun s a => ⟨s * a.x, s * a.y, s * a.z⟩⟩

instance : DecidableEq Vec3 := Classical.decEq _

@[simp] theorem zero_x : (0 : Vec3).x = 0 := rfl

@[simp] theorem zero_y : (0 : Vec3).y = 0 := rfl

@[simp] theorem zero_z : (0 : Vec3).z = 0 := rfl

@[simp] theorem add_x (a b : Vec3) : (a + b).x = a.x + b.x := rfl

@[simp] theorem add_y (a b : Vec3) : (a + b).y = a.y + b.y := rfl

@[simp] theorem add_z (a b : Vec3) : (a + b).z = a.z + b.z := rfl

@[simp] theorem sub_x (a b : Vec3) : (a - b).x = a.x - b.x := rfl

@[simp] theorem sub_y (a b : Vec3) : (a - b).y = a.y - b.y := rfl

@[simp] theorem sub_z (a b : Vec3) : (a - b).z = a.z - b.z := rfl

@[simp] theorem neg_x (a : Vec3) : (-a).x = -a.x := rfl

@[simp] theorem neg_y (a : Vec3) : (-a).y = -a.y := rfl

@[simp] theorem neg_z (a : Vec3) : (-a).z = -a.z := rfl

@[simp] theorem smul_x (s : ℝ) (a : Vec3) : (s • a).x = s * a.x := rfl

@[simp] theorem smul_y (s : ℝ) (a : Vec3) : (s • a).y = s * a.y := rfl

@[simp] theorem smul_z (s : ℝ) (a : Vec3) : (s • a).z = s * a.z := rfl

/-- Euclidean dot product (`Vector3::dot`). -/
def dot (a b : Vec3) : ℝ := a.x * b.x + a.y * b.y + a.z * b.z

/-- Cross product (`Vector3::cross`). -/
def cross (a b : Vec3) : Vec3 :=
  ⟨a.y * b.z - a.z * b.y, a.z * b.x - a.x * b.z, a.x * b.y - a.y * b.x⟩

/-- Euclidean norm (`Vector3::norm`). -/
def norm (a : Vec3) : ℝ := Real.sqrt (dot a a)

/-- `Vector3::normalize`: divide by the norm (no zero check in nalgebra). -/
def normalize (a : Vec3) : Vec3 := (1 / norm a) • a

theorem dot_self_nonneg (a : Vec3) : 0 ≤ dot a a :=
  add_nonneg (add_nonneg (mul_self_nonneg _) (mul_self_nonneg _)) (mul_self_nonneg _)

theorem norm_sq (a : Vec3) : norm a ^ 2 = dot a a :=
  Real.sq_sqrt (dot_self_nonneg a)

theorem norm_nonneg (a : Vec3) : 0 ≤ norm a := Real.sqrt_nonneg _

end Vec3

/-- Two-dimensional vector (embedding of `Vector2<f32>`). -/
@[ext]
structure Vec2 where
  x : ℝ
  y : ℝ

instance : Sub Vec2 := ⟨fun a b => ⟨a.x - b.x, a.y - b.y⟩⟩

/-- Quaternion with real coefficients (embedding of nalgebra
`Quaternion<f32>`; `w` is the scalar part). -/
structure Quat where
  w : ℝ
  i : ℝ
  j : ℝ
  k : ℝ

namespace Quat

/-- Hamilton product. -/
def mul (p r : Quat) : Quat :=
  ⟨p.w * r.w - p.i * r.i - p.j * r.j - p.k * r.k,
   p.w * r.i + p.i * r.w + p.j * r.k - p.k * r.j,
   p.w * r.j - p.i * r.k + p.j * r.w + p.k * r.i,
   p.w * r.k + p.i * r.j - p.j * r.i + p.k * r.w⟩

/-- Quaternion conjugate; for a unit quaternion this is the inverse,
which is what `UnitQuaternion::inverse` returns. -/
def conj (p : Quat) : Quat := ⟨p.w, -p.i, -p.j, -p.k⟩

/-- Squared norm of a quaternion. -/
def normSq (p : Quat) : ℝ := p.w ^ 2 + p.i ^ 2 + p.j ^ 2 + p.k ^ 2

/-- The identity quaternion. -/
def one : Quat := ⟨1, 0, 0, 0⟩

/-- Vector (imaginary) part. -/
def vec (p : Quat) : Vec3 := ⟨p.i, p.j, p.k⟩

end Quat

/-- A purely imaginary quaternion out of a vector. -/
def toQuat (v : Vec3) : Quat := ⟨0, v.x, v.y, v.z⟩

/-- Action of a unit quaternion on a vector (or on the coordinates of a
point): `q * v * q⁻¹` with `q⁻¹ = conj q`, as in nalgebra
`UnitQuaternion::transform_vector` / `transform_point`. -/
def rotAct (q : Quat) (v : Vec3) : Vec3 :=
  ((q.mul (toQuat v)).mul q.conj).vec

/-- `UnitQuaternion::from_axis_angle`. -/
def fromAxisAngle (axis : Vec3) (angle : ℝ) : Quat :=
  ⟨Real.cos (angle / 2), Real.sin (angle / 2) * axis.x,
   Real.sin (angle / 2) * axis.y, Real.sin (angle / 2) * axis.z⟩

/-- The canonical basis vectors. -/
def xAxis : Vec3 := ⟨1, 0, 0⟩

/-- The canonical Y axis (`Vector3::y_axis`). -/
def yAxis : Vec3 := ⟨0, 1, 0⟩

/-- `f32::atan2`: `atan2 y x` is the angle of the planar point `(x, y)`,
in `(-π, π]`, which is exactly `Complex.arg`. -/
def atan2 (y x : ℝ) : ℝ := Complex.arg ⟨x, y⟩

/-- `UnitQuaternion::rotation_between_axis` (with exact arithmetic the
`try_new` epsilon test degenerates to a zero test on the cross product):
rotate about the normalized cross product by `acos` of the dot product;
`none` when the axes are anti-parallel; identity when parallel. -/
def rotationBetweenAxis (a b : Vec3) : Option Quat :=
  if Vec3.cross a b ≠ 0 then
    some (fromAxisAngle (Vec3.normalize (Vec3.cross a b)) (Real.arccos (Vec3.dot a b)))
  else if Vec3.dot a b < 0 then none
  else some Quat.one

/-- `struct CoordSystemRh` from the source. -/
structure CoordSystemRh where
  up_axis : Vec3
  rotation_to_y_up : Quat

/-- `CoordSystemRh::from_up_axis`: quaternion rotating the up axis to the
canonical Y axis, with a fallback 180° rotation about X for the
anti-parallel case. -/
def CoordSystemRh.from_up_axis (up_axis : Vec3) : CoordSystemRh :=
  { up_axis := up_axis
    rotation_to_y_up :=
      (rotationBetweenAxis up_axis yAxis).getD (fromAxisAngle xAxis π) }

/-- Mouse buttons (the variants the camera code mentions). -/
inductive MouseButton where
  | Button1
  | Button2
  | Button3
deriving DecidableEq

/-- Keyboard keys (the variants the camera code mentions). -/
inductive Key where
  | Up
  | Down
  | Left
  | Right
  | Other
deriving DecidableEq

/-- Key/button state. -/
inductive InputAction where
  | Press
  | Release
deriving DecidableEq, BEq

/-- The canvas input-state query surface consumed by the camera. -/
structure Canvas where
  get_key : Key → InputAction
  get_mouse_button : MouseButton → InputAction

/-- The window events the camera handles (`WindowEvent`); payloads are the
fields the camera reads, already cast to scalars. -/
inductive WindowEvent where
  | CursorPos (x y : ℝ)
  | Scroll (xshift yshift : ℝ)
  | FramebufferSize (w h : ℝ)
  | Other

/-- `Perspective3<f32>`: stored perspective parameters. -/
structure Perspective3 where
  aspect : ℝ
  fovy : ℝ
  znear : ℝ
  zfar : ℝ

/-- The matrix of `Perspective3` (`as_matrix`), as built by
`Perspective3::new` via `set_fovy`, `set_aspect`, `set_znear_and_zfar`. -/
def Perspective3.as_matrix (p : Perspective3) : Matrix (Fin 4) (Fin 4) ℝ :=
  !![1 / Real.tan (p.fovy / 2) / p.aspect, 0, 0, 0;
     0, 1 / Real.tan (p.fovy / 2), 0, 0;
     0, 0, (p.zfar + p.znear) / (p.znear - p.zfar),
        2 * p.zfar * p.znear / (p.znear - p.zfar);
     0, 0, -1, 0]

/-- A 3×3 rotation matrix applied to a vector. -/
def mulVec3 (m : Matrix (Fin 3) (Fin 3) ℝ) (v : Vec3) : Vec3 :=
  ⟨m 0 0 * v.x + m 0 1 * v.y + m 0 2 * v.z,
   m 1 0 * v.x + m 1 1 * v.y + m 1 2 * v.z,
   m 2 0 * v.x + m 2 1 * v.y + m 2 2 * v.z⟩

/-- `Rotation3::face_towards(dir, up)`: columns are the orthonormalized
camera axes. -/
def Rotation3.face_towards (dir up : Vec3) : Matrix (Fin 3) (Fin 3) ℝ :=
  let zaxis := Vec3.normalize dir
  let xaxis := Vec3.normalize (Vec3.cross up zaxis)
  let yaxis := Vec3.normalize (Vec3.cross zaxis xaxis)
  !![xaxis.x, yaxis.x, zaxis.x;
     xaxis.y, yaxis.y, zaxis.y;
     xaxis.z, yaxis.z, zaxis.z]

/-- `Rotation3::look_at_rh(dir, up)`: inverse (transpose) of
`face_towards` of the opposite direction. -/
def Rotation3.look_at_rh (dir up : Vec3) : Matrix (Fin 3) (Fin 3) ℝ :=
  (Rotation3.face_towards (-dir) up).transpose

/-- `Isometry3<f32>`: a rotation followed by a translation. -/
structure Isometry3 where
  rotation : Matrix (Fin 3) (Fin 3) ℝ
  translation : Vec3

/-- `Isometry3::look_at_rh(eye, target, up)`. -/
def Isometry3.look_at_rh (eye target up : Vec3) : Isometry3 :=
  let rotation := Rotation3.look_at_rh (target - eye) up
  { rotation := rotation, translation := mulVec3 rotation (-eye) }

/-- `Isometry3::face_towards(eye, target, up)`. -/
def Isometry3.face_towards (eye target up : Vec3) : Isometry3 :=
  { rotation := Rotation3.face_towards (target - eye) up, translation := eye }

/-- An isometry applied to a vector applies only its rotation part
(nalgebra `Isometry3 * Vector3`). -/
def Isometry3.mulVector (iso : Isometry3) (v : Vec3) : Vec3 :=
  mulVec3 iso.rotation v

/-- `Isometry3::to_homogeneous`. -/
def Isometry3.to_homogeneous (iso : Isometry3) : Matrix (Fin 4) (Fin 4) ℝ :=
  !![iso.rotation 0 0, iso.rotation 0 1, iso.rotation 0 2, iso.translation.x;
     iso.rotation 1 0, iso.rotation 1 1, iso.rotation 1 2, iso.translation.y;
     iso.rotation 2 0, iso.rotation 2 1, iso.rotation 2 2, iso.translation.z;
     0, 0, 0, 1]

/-- `Matrix4::try_inverse`: succeeds exactly on nonsingular matrices. -/
def tryInverse (m : Matrix (Fin 4) (Fin 4) ℝ) : Option (Matrix (Fin 4) (Fin 4) ℝ) :=
  if m.det = 0 then none else some m⁻¹

/-- The camera state (`struct FirstPerson`). -/
structure FirstPerson where
  eye : Vec3
  yaw : ℝ
  pitch : ℝ
  yaw_step : ℝ
  pitch_step : ℝ
  move_step : ℝ
  rotate_button : Option MouseButton
  drag_button : Option MouseButton
  up_key : Option Key
  down_key : Option Key
  left_key : Option Key
  right_key : Option Key
  projection : Perspective3
  proj : Matrix (Fin 4) (Fin 4) ℝ
  view : Matrix (Fin 4) (Fin 4) ℝ
  proj_view : Matrix (Fin 4) (Fin 4) ℝ
  inverse_proj_view : Matrix (Fin 4) (Fin 4) ℝ
  last_cursor_pos : Vec2
  coord_system : CoordSystemRh

namespace FirstPerson

/-- `FirstPerson::at`: reconstructs the look-at point from eye, yaw and
pitch by placing a unit point on the sphere around the eye in the
canonical Y-up frame, then rotating back. -/
def atPoint (c : FirstPerson) : Vec3 :=
  let view_eye := rotAct c.coord_system.rotation_to_y_up c.eye
  let ax := view_eye.x + Real.cos c.yaw * Real.sin c.pitch
  let ay := view_eye.y + Real.cos c.pitch
  let az := view_eye.z + Real.sin c.yaw * Real.sin c.pitch
  rotAct c.coord_system.rotation_to_y_up.conj ⟨ax, ay, az⟩

/-- `FirstPerson::view_transform` (the `Camera` impl). -/
def view_transform (c : FirstPerson) : Isometry3 :=
  Isometry3.look_at_rh c.eye c.atPoint c.coord_system.up_axis

/-- `FirstPerson::observer_frame`. -/
def observer_frame (c : FirstPerson) : Isometry3 :=
  Isometry3.face_towards c.eye c.atPoint c.coord_system.up_axis

/-- `FirstPerson::update_projviews`: recompute the cached `view`, `proj`
and `proj_view` matrices; replace the cached inverse only when the
inversion succeeds. -/
def update_projviews (c : FirstPerson) : FirstPerson :=
  let view := c.view_transform.to_homogeneous
  let proj := c.projection.as_matrix
  let proj_view := proj * view
  { c with
    view := view
    proj := proj
    proj_view := proj_view
    inverse_proj_view :=
      match tryInverse proj_view with
      | some inv => inv
      | none => c.inverse_proj_view }

/-- `FirstPerson::update_restrictions`: clamp the pitch into
`[0.01, π - 0.01]` by two successive corrections. -/
def update_restrictions (c : FirstPerson) : FirstPerson :=
  let p1 := if c.pitch ≤ 0.01 then (0.01 : ℝ) else c.pitch
  let p2 := if p1 > π - 0.01 then π - 0.01 else p1
  { c with pitch := p2 }

/-- `FirstPerson::look_at`: recompute yaw and pitch from two points. -/
def look_at (c : FirstPerson) (eye at_ : Vec3) : FirstPerson :=
  let dist := Vec3.norm (eye - at_)
  let view_eye := rotAct c.coord_system.rotation_to_y_up eye
  let view_at := rotAct c.coord_system.rotation_to_y_up at_
  let pitch := Real.arccos ((view_at.y - view_eye.y) / dist)
  let yaw := atan2 (view_at.z - view_eye.z) (view_at.x - view_eye.x)
  update_projviews { c with eye := eye, yaw := yaw, pitch := pitch }

/-- `FirstPerson::new_with_frustrum`: build the default state `res`, then
apply `res.look_at(eye, at)`. -/
def new_with_frustrum (fov znear zfar : ℝ) (eye at_ : Vec3) : FirstPerson :=
  FirstPerson.look_at
    { eye := ⟨0, 0, 0⟩
      yaw := 0
      pitch := 0
      yaw_step := 0.005
      pitch_step := 0.005
      move_step := 0.5
      rotate_button := some MouseButton.Button1
      drag_button := some MouseButton.Button2
      up_key := some Key.Up
      down_key := some Key.Down
      left_key := some Key.Left
      right_key := some Key.Right
      projection := ⟨800 / 600, fov, znear, zfar⟩
      proj := 0
      view := 0
      proj_view := 0
      inverse_proj_view := 0
      last_cursor_pos := ⟨0, 0⟩
      coord_system := CoordSystemRh.from_up_axis yAxis }
    eye at_

/-- `FirstPerson::new`: default frustum. -/
def new (eye at_ : Vec3) : FirstPerson :=
  new_with_frustrum (π / 4) 0.1 1024 eye at_

/-- `FirstPerson::set_move_step`. -/
def set_move_step (c : FirstPerson) (step : ℝ) : FirstPerson :=
  { c with move_step := step }

/-- `FirstPerson::set_pitch_step`. -/
def set_pitch_step (c : FirstPerson) (step : ℝ) : FirstPerson :=
  { c with pitch_step := step }

/-- `FirstPerson::set_yaw_step`. -/
def set_yaw_step (c : FirstPerson) (step : ℝ) : FirstPerson :=
  { c with yaw_step := step }

/-- `FirstPerson::rebind_rotate_button`. -/
def rebind_rotate_button (c : FirstPerson) (new_button : Option MouseButton) : FirstPerson :=
  { c with rotate_button := new_button }

/-- `FirstPerson::rebind_drag_button`. -/
def rebind_drag_button (c : FirstPerson) (new_button : Option MouseButton) : FirstPerson :=
  { c with drag_button := new_button }

/-- `FirstPerson::rebind_up_key`. -/
def rebind_up_key (c : FirstPerson) (new_key : Option Key) : FirstPerson :=
  { c with up_key := new_key }

/-- `FirstPerson::rebind_down_key`. -/
def rebind_down_key (c : FirstPerson) (new_key : Option Key) : FirstPerson :=
  { c with down_key := new_key }

/-- `FirstPerson::rebind_left_key`. -/
def rebind_left_key (c : FirstPerson) (new_key : Option Key) : FirstPerson :=
  { c with left_key := new_key }

/-- `FirstPerson::rebind_right_key`. -/
def rebind_right_key (c : FirstPerson) (new_key : Option Key) : FirstPerson :=
  { c with right_key := new_key }

/-- `FirstPerson::unbind_movement_keys`. -/
def unbind_movement_keys (c : FirstPerson) : FirstPerson :=
  { c with up_key := none, down_key := none, left_key := none, right_key := none }

/-- `FirstPerson::handle_left_button_displacement`. -/
def handle_left_button_displacement (c : FirstPerson) (dpos : Vec2) : FirstPerson :=
  update_projviews (update_restrictions
    { c with
      yaw := c.yaw + dpos.x * c.yaw_step
      pitch := c.pitch + dpos.y * c.pitch_step })

/-- `FirstPerson::handle_right_button_displacement`. -/
def handle_right_button_displacement (c : FirstPerson) (dpos : Vec2) : FirstPerson :=
  let at_ := c.atPoint
  let dir := Vec3.normalize (at_ - c.eye)
  let tangent := Vec3.normalize (Vec3.cross c.coord_system.up_axis dir)
  let bitangent := Vec3.cross dir tangent
  update_projviews (update_restrictions
    { c with
      eye := c.eye + (0.01 * dpos.x / 10) • tangent + (0.01 * dpos.y / 10) • bitangent })

/-- `FirstPerson::handle_scroll`. -/
def handle_scroll (c : FirstPerson) (yoff : ℝ) : FirstPerson :=
  let front := c.observer_frame.mulVector ⟨0, 0, 1⟩
  update_projviews (update_restrictions
    { c with eye := c.eye + (c.move_step * yoff) • front })

/-- `FirstPerson::move_dir`. -/
def move_dir (c : FirstPerson) (up down right left : Bool) : Vec3 :=
  let t := c.observer_frame
  let frontv := t.mulVector ⟨0, 0, 1⟩
  let rightv := t.mulVector ⟨1, 0, 0⟩
  let m0 : Vec3 := 0
  let m1 := if up then m0 + frontv else m0
  let m2 := if down then m1 - frontv else m1
  let m3 := if right then m2 - rightv else m2
  let m4 := if left then m3 + rightv else m3
  if m4 = 0 then m4 else Vec3.normalize m4

/-- `FirstPerson::set_eye` (private). -/
def set_eye (c : FirstPerson) (eye : Vec3) : FirstPerson :=
  update_projviews (update_restrictions { c with eye := eye })

/-- `FirstPerson::translate_mut`: a translation acts on the eye point. -/
def translate_mut (c : FirstPerson) (t : Vec3) : FirstPerson :=
  c.set_eye (t + c.eye)

/-- `FirstPerson::set_up_axis_dir`. -/
def set_up_axis_dir (c : FirstPerson) (up_axis : Vec3) : FirstPerson :=
  if c.coord_system.up_axis = up_axis then c
  else
    let old_at := c.atPoint
    let c1 := { c with coord_system := CoordSystemRh.from_up_axis up_axis }
    c1.look_at c.eye old_at

/-- `check_optional_key_state` (free function in the source). -/
def checkOptionalKeyState (canvas : Canvas) (key : Option Key) (key_state : InputAction) : Bool :=
  match key with
  | some actual_key => canvas.get_key actual_key == key_state
  | none => false

/-- `FirstPerson::update` (the `Camera` impl): per-frame polling. -/
def update (c : FirstPerson) (canvas : Canvas) : FirstPerson :=
  let up := checkOptionalKeyState canvas c.up_key InputAction.Press
  let down := checkOptionalKeyState canvas c.down_key InputAction.Press
  let right := checkOptionalKeyState canvas c.right_key InputAction.Press
  let left := checkOptionalKeyState canvas c.left_key InputAction.Press
  let dir := c.move_dir up down right left
  let move_amount := c.move_step • dir
  c.translate_mut move_amount

/-- `FirstPerson::eye_dir`. -/
def eye_dir (c : FirstPerson) : Vec3 :=
  Vec3.normalize (c.atPoint - c.eye)

/-- `FirstPerson::handle_event` (the `Camera` impl). -/
def handle_event (c : FirstPerson) (canvas : Canvas) (event : WindowEvent) : FirstPerson :=
  match event with
  | WindowEvent.CursorPos x y =>
    let curr_pos : Vec2 := ⟨x, y⟩
    let c1 :=
      match c.rotate_button with
      | some rb =>
        if canvas.get_mouse_button rb == InputAction.Press then
          c.handle_left_button_displacement (curr_pos - c.last_cursor_pos)
        else c
      | none => c
    let c2 :=
      match c1.drag_button with
      | some db =>
        if canvas.get_mouse_button db == InputAction.Press then
          c1.handle_right_button_displacement (curr_pos - c1.last_cursor_pos)
        else c1
      | none => c1
    { c2 with last_cursor_pos := curr_pos }
  | WindowEvent.Scroll _ yshift => c.handle_scroll yshift
  | WindowEvent.FramebufferSize w h =>
    update_projviews { c with projection := { c.projection with aspect := w / h } }
  | WindowEvent.Other => c

end FirstPerson


/-! ### Algebraic helper lemmas about the quaternion action -/

theorem rotAct_one (v : Vec3) : rotAct Quat.one v = v := by
  ext <;> simp [rotAct, Quat.mul, Quat.conj, Quat.one, toQuat, Quat.vec]

theorem rotAct_one_conj (v : Vec3) : rotAct Quat.one.conj v = v := by
  ext <;> simp [rotAct, Quat.mul, Quat.conj, Quat.one, toQuat, Quat.vec]

theorem rotAct_add (q : Quat) (a b : Vec3) :
    rotAct q (a + b) = rotAct q a + rotAct q b := by
  ext <;> simp [rotAct, Quat.mul, Quat.conj, toQuat, Quat.vec] <;> ring

theorem rotAct_sub (q : Quat) (a b : Vec3) :
    rotAct q (a - b) = rotAct q a - rotAct q b := by
  ext <;> simp [rotAct, Quat.mul, Quat.conj, toQuat, Quat.vec] <;> ring

theorem rotAct_smul (q : Quat) (s : ℝ) (a : Vec3) :
    rotAct q (s • a) = s • rotAct q a := by
  ext <;> simp [rotAct, Quat.mul, Quat.conj, toQuat, Quat.vec] <;> ring

theorem rotAct_dot (q : Quat) (v : Vec3) :
    Vec3.dot (rotAct q v) (rotAct q v) = Quat.normSq q ^ 2 * Vec3.dot v v := by
  simp only [rotAct, Quat.mul, Quat.conj, toQuat, Quat.vec, Vec3.dot, Quat.normSq]
  ring

theorem rotAct_conj_rotAct (q : Quat) (v : Vec3) :
    rotAct q.conj (rotAct q v) = (Quat.normSq q ^ 2) • v := by
  ext <;> simp [rotAct, Quat.mul, Quat.conj, toQuat, Quat.vec, Quat.normSq] <;> ring

theorem normSq_conj (q : Quat) : Quat.normSq q.conj = Quat.normSq q := by
  simp [Quat.normSq, Quat.conj]

@[simp] theorem Vec3.one_smul (a : Vec3) : (1 : ℝ) • a = a := by
  ext <;> simp

theorem Vec3.dot_self_pos (a : Vec3) (h : a ≠ 0) : 0 < Vec3.dot a a := by
  rcases (Vec3.dot_self_nonneg a).lt_or_eq with hlt | heq
  · exact hlt
  · exfalso
    apply h
    have hx : a.x * a.x = 0 := by
      simp only [Vec3.dot] at heq
      nlinarith [mul_self_nonneg a.x, mul_self_nonneg a.y, mul_self_nonneg a.z]
    have hy : a.y * a.y = 0 := by
      simp only [Vec3.dot] at heq
      nlinarith [mul_self_nonneg a.x, mul_self_nonneg a.y, mul_self_nonneg a.z]
    have hz : a.z * a.z = 0 := by
      simp only [Vec3.dot] at heq
      nlinarith [mul_self_nonneg a.x, mul_self_nonneg a.y, mul_self_nonneg a.z]
    ext
    · simpa using mul_self_eq_zero.mp hx
    · simpa using mul_self_eq_zero.mp hy
    · simpa using mul_self_eq_zero.mp hz

theorem Vec3.norm_pos (a : Vec3) (h : a ≠ 0) : 0 < Vec3.norm a :=
  Real.sqrt_pos.mpr (Vec3.dot_self_pos a h)

theorem Vec3.dot_smul_self (s : ℝ) (a : Vec3) :
    Vec3.dot (s • a) (s • a) = s ^ 2 * Vec3.dot a a := by
  simp [Vec3.dot]; ring

theorem Vec3.dot_normalize_self (a : Vec3) (h : a ≠ 0) :
    Vec3.dot (Vec3.normalize a) (Vec3.normalize a) = 1 := by
  have hp := Vec3.dot_self_pos a h
  rw [Vec3.normalize, Vec3.dot_smul_self, div_pow, one_pow, Vec3.norm_sq a]
  field_simp

theorem normSq_fromAxisAngle (axis : Vec3) (angle : ℝ)
    (h : Vec3.dot axis axis = 1) : Quat.normSq (fromAxisAngle axis angle) = 1 := by
  simp only [Quat.normSq, fromAxisAngle, Vec3.dot] at h ⊢
  nlinarith [Real.sin_sq_add_cos_sq (angle / 2)]

theorem fromUpAxis_normSq (up : Vec3) :
    Quat.normSq (CoordSystemRh.from_up_axis up).rotation_to_y_up = 1 := by
  unfold CoordSystemRh.from_up_axis rotationBetweenAxis
  by_cases hc : Vec3.cross up yAxis ≠ 0
  · rw [if_pos hc]
    exact normSq_fromAxisAngle _ _ (Vec3.dot_normalize_self _ hc)
  · rw [if_neg hc]
    by_cases hdot : Vec3.dot up yAxis < 0
    · rw [if_pos hdot]
      exact normSq_fromAxisAngle _ _ (by norm_num [Vec3.dot, xAxis])
    · rw [if_neg hdot]
      norm_num [Quat.one, Quat.normSq]

theorem fromUpAxis_yAxis : CoordSystemRh.from_up_axis yAxis = ⟨yAxis, Quat.one⟩ := by
  unfold CoordSystemRh.from_up_axis rotationBetweenAxis
  have hc : Vec3.cross yAxis yAxis = 0 := by
    ext <;> simp [Vec3.cross, yAxis]
  rw [if_neg (by simp [hc])]
  rw [if_neg (by norm_num [Vec3.dot, yAxis])]
  rfl


/-! ### Field-preservation lemmas for the camera operations -/

namespace FirstPerson

@[simp] theorem update_projviews_eye (c : FirstPerson) : (update_projviews c).eye = c.eye := rfl

@[simp] theorem update_projviews_yaw (c : FirstPerson) : (update_projviews c).yaw = c.yaw := rfl

@[simp] theorem update_projviews_pitch (c : FirstPerson) : (update_projviews c).pitch = c.pitch := rfl

@[simp] theorem update_projviews_coord_system (c : FirstPerson) :
    (update_projviews c).coord_system = c.coord_system := rfl

@[simp] theorem update_restrictions_eye (c : FirstPerson) : (update_restrictions c).eye = c.eye := rfl

@[simp] theorem update_restrictions_yaw (c : FirstPerson) : (update_restrictions c).yaw = c.yaw := rfl

@[simp] theorem update_restrictions_coord_system (c : FirstPerson) :
    (update_restrictions c).coord_system = c.coord_system := rfl

@[simp] theorem look_at_eye (c : FirstPerson) (eye at_ : Vec3) :
    (look_at c eye at_).eye = eye := rfl

@[simp] theorem look_at_coord_system (c : FirstPerson) (eye at_ : Vec3) :
    (look_at c eye at_).coord_system = c.coord_system := rfl

theorem look_at_pitch (c : FirstPerson) (eye at_ : Vec3) :
    (look_at c eye at_).pitch
      = Real.arccos
          (((rotAct c.coord_system.rotation_to_y_up at_).y
              - (rotAct c.coord_system.rotation_to_y_up eye).y)
            / Vec3.norm (eye - at_)) := rfl

theorem look_at_yaw (c : FirstPerson) (eye at_ : Vec3) :
    (look_at c eye at_).yaw
      = atan2
          ((rotAct c.coord_system.rotation_to_y_up at_).z
            - (rotAct c.coord_system.rotation_to_y_up eye).z)
          ((rotAct c.coord_system.rotation_to_y_up at_).x
            - (rotAct c.coord_system.rotation_to_y_up eye).x) := rfl

theorem atPoint_update_projviews (c : FirstPerson) :
    (update_projviews c).atPoint = c.atPoint := rfl

end FirstPerson

/-! ### The spherical reconstruction identity behind `at()` -/

theorem dir_reconstruction (wx wy wz d : ℝ) (hd : 0 < d)
    (h : wx ^ 2 + wy ^ 2 + wz ^ 2 = d ^ 2) :
    Real.cos (atan2 wz wx) * Real.sin (Real.arccos (wy / d)) = wx / d ∧
    Real.cos (Real.arccos (wy / d)) = wy / d ∧
    Real.sin (atan2 wz wx) * Real.sin (Real.arccos (wy / d)) = wz / d := by
  have hy2 : wy ^ 2 ≤ d ^ 2 := by nlinarith [sq_nonneg wx, sq_nonneg wz]
  have hged : -d ≤ wy := by nlinarith
  have hled : wy ≤ d := by nlinarith
  have hb1 : -1 ≤ wy / d := by rw [le_div_iff₀ hd]; linarith
  have hb2 : wy / d ≤ 1 := by rw [div_le_iff₀ hd]; linarith
  have hcos : Real.cos (Real.arccos (wy / d)) = wy / d := Real.cos_arccos hb1 hb2
  have hsinval : 1 - (wy / d) ^ 2 = (wx ^ 2 + wz ^ 2) / d ^ 2 := by
    field_simp
    linarith
  have hsin : Real.sin (Real.arccos (wy / d)) = Real.sqrt (wx ^ 2 + wz ^ 2) / d := by
    rw [Real.sin_arccos, hsinval, Real.sqrt_div (by positivity), Real.sqrt_sq hd.le]
  refine ⟨?_, hcos, ?_⟩
  · by_cases hzero : wx = 0 ∧ wz = 0
    · rcases hzero with ⟨h1, h2⟩
      subst h1; subst h2
      simp [hsin]
    · have hz : (⟨wx, wz⟩ : ℂ) ≠ 0 := by
        intro h0
        rw [Complex.ext_iff] at h0
        exact hzero ⟨h0.1, h0.2⟩
      have hr : (0 : ℝ) < wx ^ 2 + wz ^ 2 := by
        rcases not_and_or.mp hzero with h1 | h1
        · nlinarith [mul_self_pos.mpr h1, sq_nonneg wz]
        · nlinarith [mul_self_pos.mpr h1, sq_nonneg wx]
      have habs : Complex.abs ⟨wx, wz⟩ = Real.sqrt (wx ^ 2 + wz ^ 2) := by
        rw [Complex.abs_apply, Complex.normSq_mk]
        congr 1
        ring
      have hrs : (0 : ℝ) < Real.sqrt (wx ^ 2 + wz ^ 2) := Real.sqrt_pos.mpr hr
      rw [atan2, Complex.cos_arg hz, habs, hsin]
      show wx / Real.sqrt (wx ^ 2 + wz ^ 2) * (Real.sqrt (wx ^ 2 + wz ^ 2) / d) = wx / d
      field_simp
  · by_cases hzero : wx = 0 ∧ wz = 0
    · rcases hzero with ⟨h1, h2⟩
      subst h1; subst h2
      simp [hsin]
    · have hr : (0 : ℝ) < wx ^ 2 + wz ^ 2 := by
        rcases not_and_or.mp hzero with h1 | h1
        · nlinarith [mul_self_pos.mpr h1, sq_nonneg wz]
        · nlinarith [mul_self_pos.mpr h1, sq_nonneg wx]
      have habs : Complex.abs ⟨wx, wz⟩ = Real.sqrt (wx ^ 2 + wz ^ 2) := by
        rw [Complex.abs_apply, Complex.normSq_mk]
        congr 1
        ring
      have hrs : (0 : ℝ) < Real.sqrt (wx ^ 2 + wz ^ 2) := Real.sqrt_pos.mpr hr
      rw [atan2, Complex.sin_arg, habs, hsin]
      show wz / Real.sqrt (wx ^ 2 + wz ^ 2) * (Real.sqrt (wx ^ 2 + wz ^ 2) / d) = wz / d
      field_simp


theorem Vec3.sub_eq_zero_iff (a b : Vec3) : a - b = 0 ↔ a = b := by
  constructor
  · intro h
    ext
    · have hx := congrArg Vec3.x h
      simp at hx
      linarith
    · have hy := congrArg Vec3.y h
      simp at hy
      linarith
    · have hz := congrArg Vec3.z h
      simp at hz
      linarith
  · intro h
    rw [h]
    ext <;> simp

/-- General round-trip: with a unit rotation quaternion, `look_at(eye, at)`
followed by `at()` lands on the point at unit distance from the eye in the
direction of `at`. -/
theorem look_at_atPoint_aux (c : FirstPerson)
    (hq : Quat.normSq c.coord_system.rotation_to_y_up = 1)
    (eye at_ : Vec3) (hne : eye ≠ at_) :
    (c.look_at eye at_).atPoint
      = eye + (1 / Vec3.norm (eye - at_)) • (at_ - eye) := by
  have hsub2 : eye - at_ ≠ 0 := by
    intro h0
    exact hne ((Vec3.sub_eq_zero_iff eye at_).mp h0)
  set q := c.coord_system.rotation_to_y_up with hq_def
  set d := Vec3.norm (eye - at_) with hd_def
  have hd : 0 < d := Vec3.norm_pos _ hsub2
  set w := rotAct q (at_ - eye) with hw_def
  have hww : w.x ^ 2 + w.y ^ 2 + w.z ^ 2 = d ^ 2 := by
    have h1 := rotAct_dot q (at_ - eye)
    rw [hq] at h1
    have h2 := Vec3.norm_sq (eye - at_)
    rw [← hd_def] at h2
    rw [← hw_def] at h1
    simp only [Vec3.dot, Vec3.sub_x, Vec3.sub_y, Vec3.sub_z] at h1 h2
    nlinarith [h1, h2]
  have hyz : (rotAct q at_).y - (rotAct q eye).y = w.y := by
    rw [hw_def, rotAct_sub]; simp
  have hzz : (rotAct q at_).z - (rotAct q eye).z = w.z := by
    rw [hw_def, rotAct_sub]; simp
  have hxz : (rotAct q at_).x - (rotAct q eye).x = w.x := by
    rw [hw_def, rotAct_sub]; simp
  obtain ⟨e1, e2, e3⟩ := dir_reconstruction w.x w.y w.z d hd hww
  have hpitch : (c.look_at eye at_).pitch = Real.arccos (w.y / d) := by
    rw [FirstPerson.look_at_pitch, hyz, ← hd_def]
  have hyaw : (c.look_at eye at_).yaw = atan2 w.z w.x := by
    rw [FirstPerson.look_at_yaw, hzz, hxz]
  have hstate : (c.look_at eye at_).atPoint
      = rotAct q.conj
          ⟨(rotAct q eye).x + Real.cos (atan2 w.z w.x) * Real.sin (Real.arccos (w.y / d)),
           (rotAct q eye).y + Real.cos (Real.arccos (w.y / d)),
           (rotAct q eye).z + Real.sin (atan2 w.z w.x) * Real.sin (Real.arccos (w.y / d))⟩ := by
    rw [FirstPerson.atPoint, ← hpitch, ← hyaw]
    rw [FirstPerson.look_at_eye, FirstPerson.look_at_coord_system, ← hq_def]
  rw [hstate, e1, e2, e3]
  have hvec : (⟨(rotAct q eye).x + w.x / d,
               (rotAct q eye).y + w.y / d,
               (rotAct q eye).z + w.z / d⟩ : Vec3)
      = rotAct q eye + (1 / d) • w := by
    ext <;> simp <;> ring
  rw [hvec, rotAct_add, rotAct_smul, rotAct_conj_rotAct q eye, hw_def,
    rotAct_conj_rotAct q (at_ - eye), hq]
  ext <;> simp

/-- With a unit rotation quaternion, the reconstructed look-at point of any
camera state lies at distance exactly 1 from the eye. -/
theorem atPoint_dist (c : FirstPerson)
    (hq : Quat.normSq c.coord_system.rotation_to_y_up = 1) :
    Vec3.dot (c.atPoint - c.eye) (c.atPoint - c.eye) = 1 := by
  set q := c.coord_system.rotation_to_y_up with hq_def
  set u : Vec3 := ⟨Real.cos c.yaw * Real.sin c.pitch, Real.cos c.pitch,
    Real.sin c.yaw * Real.sin c.pitch⟩ with hu_def
  have hstate : c.atPoint = rotAct q.conj (rotAct q c.eye + u) := rfl
  have hsplit : c.atPoint - c.eye = rotAct q.conj u := by
    rw [hstate, rotAct_add, rotAct_conj_rotAct q c.eye, hq]
    ext <;> simp
  rw [hsplit, rotAct_dot, normSq_conj, hq]
  simp only [hu_def, Vec3.dot]
  nlinarith [Real.sin_sq_add_cos_sq c.yaw, Real.sin_sq_add_cos_sq c.pitch]


/-! ### Evaluation helpers for cameras whose rotation quaternion is the identity -/

theorem look_at_pitch_id (c : FirstPerson)
    (h : c.coord_system.rotation_to_y_up = Quat.one) (eye at_ : Vec3) :
    (c.look_at eye at_).pitch
      = Real.arccos ((at_.y - eye.y) / Vec3.norm (eye - at_)) := by
  rw [FirstPerson.look_at_pitch, h, rotAct_one, rotAct_one]

theorem look_at_yaw_id (c : FirstPerson)
    (h : c.coord_system.rotation_to_y_up = Quat.one) (eye at_ : Vec3) :
    (c.look_at eye at_).yaw = atan2 (at_.z - eye.z) (at_.x - eye.x) := by
  rw [FirstPerson.look_at_yaw, h, rotAct_one, rotAct_one]

theorem atPoint_id (c : FirstPerson)
    (h : c.coord_system.rotation_to_y_up = Quat.one) :
    c.atPoint = ⟨c.eye.x + Real.cos c.yaw * Real.sin c.pitch,
                 c.eye.y + Real.cos c.pitch,
                 c.eye.z + Real.sin c.yaw * Real.sin c.pitch⟩ := by
  simp only [FirstPerson.atPoint, h, rotAct_one, rotAct_one_conj]

theorem new_coord (eye at_ : Vec3) :
    (FirstPerson.new eye at_).coord_system.rotation_to_y_up = Quat.one := by
  show (CoordSystemRh.from_up_axis yAxis).rotation_to_y_up = Quat.one
  rw [fromUpAxis_yAxis]

theorem new_pitch (eye at_ : Vec3) :
    (FirstPerson.new eye at_).pitch
      = Real.arccos ((at_.y - eye.y) / Vec3.norm (eye - at_)) :=
  look_at_pitch_id _ (by rw [fromUpAxis_yAxis]) eye at_

theorem new_yaw (eye at_ : Vec3) :
    (FirstPerson.new eye at_).yaw = atan2 (at_.z - eye.z) (at_.x - eye.x) :=
  look_at_yaw_id _ (by rw [fromUpAxis_yAxis]) eye at_

/-! ### Concrete states used to instantiate the theorems -/

/-- A concrete camera state with the default Y-up coordinate system and the
default sensitivities and bindings. -/
def cam0 : FirstPerson :=
  { eye := ⟨0, 0, 0⟩
    yaw := 0
    pitch := 1
    yaw_step := 0.005
    pitch_step := 0.005
    move_step := 0.5
    rotate_button := some MouseButton.Button1
    drag_button := some MouseButton.Button2
    up_key := some Key.Up
    down_key := some Key.Down
    left_key := some Key.Left
    right_key := some Key.Right
    projection := ⟨800 / 600, π / 4, 0.1, 1024⟩
    proj := 0
    view := 0
    proj_view := 0
    inverse_proj_view := 0
    last_cursor_pos := ⟨0, 0⟩
    coord_system := ⟨yAxis, Quat.one⟩ }

/-- A camera state whose stored projection has aspect ratio 0, making the
perspective matrix singular. -/
def cam7 : FirstPerson := { cam0 with projection := ⟨0, π / 4, 0.1, 1024⟩ }

/-- A canvas reporting every key and button as released. -/
def canvas0 : Canvas := ⟨fun _ => InputAction.Release, fun _ => InputAction.Release⟩

theorem cam0_normSq : Quat.normSq cam0.coord_system.rotation_to_y_up = 1 := by
  norm_num [cam0, Quat.normSq, Quat.one]


/-! ### Behavioral helper lemmas -/

theorem update_restrictions_pitch_mem (c : FirstPerson) :
    (c.update_restrictions).pitch ∈ Set.Icc (0.01 : ℝ) (π - 0.01) := by
  unfold FirstPerson.update_restrictions
  simp only [Set.mem_Icc]
  split_ifs <;> constructor <;> linarith [Real.pi_gt_three]

theorem move_dir_false (c : FirstPerson) :
    c.move_dir false false false false = 0 := by
  unfold FirstPerson.move_dir
  simp

theorem update_eye_noop (c : FirstPerson) (canvas : Canvas)
    (h1 : FirstPerson.checkOptionalKeyState canvas c.up_key InputAction.Press = false)
    (h2 : FirstPerson.checkOptionalKeyState canvas c.down_key InputAction.Press = false)
    (h3 : FirstPerson.checkOptionalKeyState canvas c.right_key InputAction.Press = false)
    (h4 : FirstPerson.checkOptionalKeyState canvas c.left_key InputAction.Press = false) :
    (c.update canvas).eye = c.eye := by
  show c.move_step •
      c.move_dir (FirstPerson.checkOptionalKeyState canvas c.up_key InputAction.Press)
        (FirstPerson.checkOptionalKeyState canvas c.down_key InputAction.Press)
        (FirstPerson.checkOptionalKeyState canvas c.right_key InputAction.Press)
        (FirstPerson.checkOptionalKeyState canvas c.left_key InputAction.Press) + c.eye = c.eye
  rw [h1, h2, h3, h4, move_dir_false]
  ext <;> simp


/-! ### Claim theorems -/

/-- C10: each sensitivity setter (`set_move_step`, `set_pitch_step`,
`set_yaw_step`) and each binding operation (`rebind_rotate_button`,
`rebind_drag_button`, `rebind_up_key`, `rebind_down_key`, `rebind_left_key`,
`rebind_right_key`, `unbind_movement_keys`) modifies only its own
configuration field: `eye`, `yaw`, `pitch` and the cached `view`, `proj`,
`proj_view` and `inverse_proj_view` matrices are left unchanged. -/
theorem setters_preserve_state :
    ∀ (c : FirstPerson) (s : ℝ) (mb : Option MouseButton) (k : Option Key),
      ((c.set_move_step s).eye = c.eye ∧ (c.set_move_step s).yaw = c.yaw ∧
        (c.set_move_step s).pitch = c.pitch ∧ (c.set_move_step s).view = c.view ∧
        (c.set_move_step s).proj = c.proj ∧
        (c.set_move_step s).proj_view = c.proj_view ∧
        (c.set_move_step s).inverse_proj_view = c.inverse_proj_view) ∧
      ((c.set_pitch_step s).eye = c.eye ∧ (c.set_pitch_step s).yaw = c.yaw ∧
        (c.set_pitch_step s).pitch = c.pitch ∧ (c.set_pitch_step s).view = c.view ∧
        (c.set_pitch_step s).proj = c.proj ∧
        (c.set_pitch_step s).proj_view = c.proj_view ∧
        (c.set_pitch_step s).inverse_proj_view = c.inverse_proj_view) ∧
      ((c.set_yaw_step s).eye = c.eye ∧ (c.set_yaw_step s).yaw = c.yaw ∧
        (c.set_yaw_step s).pitch = c.pitch ∧ (c.set_yaw_step s).view = c.view ∧
        (c.set_yaw_step s).proj = c.proj ∧
        (c.set_yaw_step s).proj_view = c.proj_view ∧
        (c.set_yaw_step s).inverse_proj_view = c.inverse_proj_view) ∧
      ((c.rebind_rotate_button mb).eye = c.eye ∧ (c.rebind_rotate_button mb).yaw = c.yaw ∧
        (c.rebind_rotate_button mb).pitch = c.pitch ∧ (c.rebind_rotate_button mb).view = c.view ∧
        (c.rebind_rotate_button mb).proj = c.proj ∧
        (c.rebind_rotate_button mb).proj_view = c.proj_view ∧
        (c.rebind_rotate_button mb).inverse_proj_view = c.inverse_proj_view) ∧
      ((c.rebind_drag_button mb).eye = c.eye ∧ (c.rebind_drag_button mb).yaw = c.yaw ∧
        (c.rebind_drag_button mb).pitch = c.pitch ∧ (c.rebind_drag_button mb).view = c.view ∧
        (c.rebind_drag_button mb).proj = c.proj ∧
        (c.rebind_drag_button mb).proj_view = c.proj_view ∧
        (c.rebind_drag_button mb).inverse_proj_view = c.inverse_proj_view) ∧
      ((c.rebind_up_key k).eye = c.eye ∧ (c.rebind_up_key k).yaw = c.yaw ∧
        (c.rebind_up_key k).pitch = c.pitch ∧ (c.rebind_up_key k).view = c.view ∧
        (c.rebind_up_key k).proj = c.proj ∧
        (c.rebind_up_key k).proj_view = c.proj_view ∧
        (c.rebind_up_key k).inverse_proj_view = c.inverse_proj_view) ∧
      ((c.rebind_down_key k).eye = c.eye ∧ (c.rebind_down_key k).yaw = c.yaw ∧
        (c.rebind_down_key k).pitch = c.pitch ∧ (c.rebind_down_key k).view = c.view ∧
        (c.rebind_down_key k).proj = c.proj ∧
        (c.rebind_down_key k).proj_view = c.proj_view ∧
        (c.rebind_down_key k).inverse_proj_view = c.inverse_proj_view) ∧
      ((c.rebind_left_key k).eye = c.eye ∧ (c.rebind_left_key k).yaw = c.yaw ∧
        (c.rebind_left_key k).pitch = c.pitch ∧ (c.rebind_left_key k).view = c.view ∧
        (c.rebind_left_key k).proj = c.proj ∧
        (c.rebind_left_key k).proj_view = c.proj_view ∧
        (c.rebind_left_key k).inverse_proj_view = c.inverse_proj_view) ∧
      ((c.rebind_right_key k).eye = c.eye ∧ (c.rebind_right_key k).yaw = c.yaw ∧
        (c.rebind_right_key k).pitch = c.pitch ∧ (c.rebind_right_key k).view = c.view ∧
        (c.rebind_right_key k).proj = c.proj ∧
        (c.rebind_right_key k).proj_view = c.proj_view ∧
        (c.rebind_right_key k).inverse_proj_view = c.inverse_proj_view) ∧
      ((c.unbind_movement_keys).eye = c.eye ∧ (c.unbind_movement_keys).yaw = c.yaw ∧
        (c.unbind_movement_keys).pitch = c.pitch ∧ (c.unbind_movement_keys).view = c.view ∧
        (c.unbind_movement_keys).proj = c.proj ∧
        (c.unbind_movement_keys).proj_view = c.proj_view ∧
        (c.unbind_movement_keys).inverse_proj_view = c.inverse_proj_view) := by
  intro c s mb k
  refine ⟨?_, ?_, ?_, ?_, ?_, ?_, ?_, ?_, ?_, ?_⟩ <;>
    exact ⟨rfl, rfl, rfl, rfl, rfl, rfl, rfl⟩

/-- C8: from any camera state with the default `yaw_step = 0.005`, a
left-button drag of `dpos = (10, 0)` increases the yaw by exactly 0.05
radians, and the pitch is unchanged before clamping (the stored pitch is
exactly the clamp of the original pitch). -/
theorem left_drag_yaw_increment (c : FirstPerson) (h : c.yaw_step = 0.005) :
    (c.handle_left_button_displacement ⟨10, 0⟩).yaw = c.yaw + 0.05 ∧
    (c.handle_left_button_displacement ⟨10, 0⟩).pitch = (c.update_restrictions).pitch := by
  constructor
  · show c.yaw + (10 : ℝ) * c.yaw_step = c.yaw + 0.05
    rw [h]
    norm_num
  · show (FirstPerson.update_restrictions
      { c with yaw := c.yaw + (10 : ℝ) * c.yaw_step,
               pitch := c.pitch + (0 : ℝ) * c.pitch_step }).pitch
      = (c.update_restrictions).pitch
    simp [FirstPerson.update_restrictions]

theorem left_drag_yaw_increment_witness :
    cam0.yaw_step = 0.005 ∧
    ((cam0.handle_left_button_displacement ⟨10, 0⟩).yaw = cam0.yaw + 0.05 ∧
      (cam0.handle_left_button_displacement ⟨10, 0⟩).pitch = (cam0.update_restrictions).pitch) :=
  ⟨rfl, left_drag_yaw_increment cam0 rfl⟩

/-- C7: when the recomputed combined transform `proj * view` is singular,
`update_projviews` leaves the previously cached `inverse_proj_view`
untouched, while `view`, `proj` and `proj_view` are still updated. -/
theorem update_projviews_singular (c : FirstPerson)
    (h : (c.projection.as_matrix * c.view_transform.to_homogeneous).det = 0) :
    (c.update_projviews).view = c.view_transform.to_homogeneous ∧
    (c.update_projviews).proj = c.projection.as_matrix ∧
    (c.update_projviews).proj_view
      = c.projection.as_matrix * c.view_transform.to_homogeneous ∧
    (c.update_projviews).inverse_proj_view = c.inverse_proj_view := by
  refine ⟨rfl, rfl, rfl, ?_⟩
  show (match tryInverse (c.projection.as_matrix * c.view_transform.to_homogeneous) with
        | some inv => inv
        | none => c.inverse_proj_view) = c.inverse_proj_view
  rw [tryInverse, if_pos h]

theorem update_projviews_singular_witness :
    (cam7.projection.as_matrix * cam7.view_transform.to_homogeneous).det = 0 ∧
    (cam7.update_projviews).inverse_proj_view = cam7.inverse_proj_view := by
  have hdet : (cam7.projection.as_matrix * cam7.view_transform.to_homogeneous).det = 0 := by
    rw [Matrix.det_mul]
    have h0 : cam7.projection.as_matrix.det = 0 :=
      Matrix.det_eq_zero_of_row_eq_zero 0 (by
        intro j
        fin_cases j <;> simp [Perspective3.as_matrix, cam7, cam0])
    rw [h0, zero_mul]
  exact ⟨hdet, (update_projviews_singular cam7 hdet).2.2.2⟩

/-- C9: after `unbind_movement_keys`, a per-frame `update` leaves the eye
unchanged whatever the canvas reports; likewise `update` leaves the eye
unchanged whenever no bound movement key is pressed. -/
theorem unbound_update_preserves_eye :
    (∀ (c : FirstPerson) (canvas : Canvas),
        ((c.unbind_movement_keys).update canvas).eye = c.eye) ∧
    (∀ (c : FirstPerson) (canvas : Canvas),
        FirstPerson.checkOptionalKeyState canvas c.up_key InputAction.Press = false →
        FirstPerson.checkOptionalKeyState canvas c.down_key InputAction.Press = false →
        FirstPerson.checkOptionalKeyState canvas c.right_key InputAction.Press = false →
        FirstPerson.checkOptionalKeyState canvas c.left_key InputAction.Press = false →
        (c.update canvas).eye = c.eye) :=
  ⟨fun c canvas => update_eye_noop (c.unbind_movement_keys) canvas rfl rfl rfl rfl,
   fun c canvas h1 h2 h3 h4 => update_eye_noop c canvas h1 h2 h3 h4⟩

theorem unbound_update_preserves_eye_witness :
    FirstPerson.checkOptionalKeyState canvas0 cam0.up_key InputAction.Press = false ∧
    (cam0.update canvas0).eye = cam0.eye :=
  ⟨rfl, unbound_update_preserves_eye.2 cam0 canvas0 rfl rfl rfl rfl⟩


/-- C1 (amended): the pitch clamp to `[0.01, π - 0.01]` holds after the
operations that call `update_restrictions` — left/right-button drag
handling, scroll, and the per-frame keyboard update — and resize handling
leaves the pitch unchanged; but `look_at` (and hence construction and the
up-axis change, which delegate to it) stores the raw `acos`-derived pitch,
which only lies in the wider interval `[0, π]` and can reach its
endpoints. -/
theorem pitch_clamp_after_ops :
    (∀ (c : FirstPerson) (dpos : Vec2),
        (c.handle_left_button_displacement dpos).pitch ∈ Set.Icc (0.01 : ℝ) (π - 0.01)) ∧
    (∀ (c : FirstPerson) (dpos : Vec2),
        (c.handle_right_button_displacement dpos).pitch ∈ Set.Icc (0.01 : ℝ) (π - 0.01)) ∧
    (∀ (c : FirstPerson) (yoff : ℝ),
        (c.handle_scroll yoff).pitch ∈ Set.Icc (0.01 : ℝ) (π - 0.01)) ∧
    (∀ (c : FirstPerson) (canvas : Canvas),
        (c.update canvas).pitch ∈ Set.Icc (0.01 : ℝ) (π - 0.01)) ∧
    (∀ (c : FirstPerson) (canvas : Canvas) (w hgt : ℝ),
        (c.handle_event canvas (WindowEvent.FramebufferSize w hgt)).pitch = c.pitch) ∧
    (∀ (c : FirstPerson) (eye at_ : Vec3),
        (c.look_at eye at_).pitch ∈ Set.Icc (0 : ℝ) π) ∧
    (∀ (fov znear zfar : ℝ) (eye at_ : Vec3),
        (FirstPerson.new_with_frustrum fov znear zfar eye at_).pitch ∈ Set.Icc (0 : ℝ) π) ∧
    (∀ (c : FirstPerson) (up : Vec3),
        (c.set_up_axis_dir up).pitch ∈ Set.Icc (0 : ℝ) π ∨
          (c.set_up_axis_dir up).pitch = c.pitch) := by
  refine ⟨fun c d => update_restrictions_pitch_mem _,
          fun c d => update_restrictions_pitch_mem _,
          fun c y => update_restrictions_pitch_mem _,
          fun c canvas => update_restrictions_pitch_mem _,
          fun c canvas w hgt => rfl,
          fun c eye at_ => ⟨Real.arccos_nonneg _, Real.arccos_le_pi _⟩,
          fun fov zn zf eye at_ => ⟨Real.arccos_nonneg _, Real.arccos_le_pi _⟩,
          ?_⟩
  intro c up
  unfold FirstPerson.set_up_axis_dir
  split
  · exact Or.inr rfl
  · exact Or.inl ⟨Real.arccos_nonneg _, Real.arccos_le_pi _⟩

/-- C1 counterexample: `look_at` is a mutating operation, yet calling it
with the target directly below the eye stores a pitch of exactly `π`,
strictly above `π - 0.01`, so the claimed invariant fails after it. -/
theorem pitch_clamp_counterexample :
    π - 0.01 < (cam0.look_at ⟨0, 0, 0⟩ ⟨0, -1, 0⟩).pitch := by
  rw [look_at_pitch_id cam0 rfl]
  have hn : Vec3.norm ((⟨0, 0, 0⟩ : Vec3) - ⟨0, -1, 0⟩) = 1 := by
    simp [Vec3.norm, Vec3.dot]
  rw [hn]
  norm_num [Real.arccos_neg_one]

/-- derived-cache consistency: the cached combined transform is the product
of the cached projection and view matrices. -/
def projViewConsistent (c : FirstPerson) : Prop := c.proj_view = c.proj * c.view

/-- C3: the invariant `proj_view = proj * view` (exactly, in real
arithmetic) is established by construction and by every operation that
recomputes the caches, and is preserved by the remaining mutating entry
points (`set_up_axis_dir` and `handle_event`, which recompute the caches on
every path that mutates the state). -/
theorem proj_view_product_invariant :
    (∀ (fov znear zfar : ℝ) (eye at_ : Vec3),
        projViewConsistent (FirstPerson.new_with_frustrum fov znear zfar eye at_)) ∧
    (∀ (c : FirstPerson) (eye at_ : Vec3), projViewConsistent (c.look_at eye at_)) ∧
    (∀ (c : FirstPerson) (dpos : Vec2),
        projViewConsistent (c.handle_left_button_displacement dpos)) ∧
    (∀ (c : FirstPerson) (dpos : Vec2),
        projViewConsistent (c.handle_right_button_displacement dpos)) ∧
    (∀ (c : FirstPerson) (yoff : ℝ), projViewConsistent (c.handle_scroll yoff)) ∧
    (∀ (c : FirstPerson) (canvas : Canvas), projViewConsistent (c.update canvas)) ∧
    (∀ (c : FirstPerson) (up : Vec3),
        projViewConsistent c → projViewConsistent (c.set_up_axis_dir up)) ∧
    (∀ (c : FirstPerson) (canvas : Canvas) (event : WindowEvent),
        projViewConsistent c → projViewConsistent (c.handle_event canvas event)) := by
  refine ⟨fun _ _ _ _ _ => rfl, fun _ _ _ => rfl, fun _ _ => rfl, fun _ _ => rfl,
    fun _ _ => rfl, fun _ _ => rfl, ?_, ?_⟩
  · intro c up h
    unfold FirstPerson.set_up_axis_dir
    split
    · exact h
    · rfl
  · intro c canvas event h
    cases event with
    | CursorPos x y =>
      unfold FirstPerson.handle_event
      have step2 : ∀ (c1 : FirstPerson), projViewConsistent c1 →
          projViewConsistent
            (match c1.drag_button with
             | some db =>
               if canvas.get_mouse_button db == InputAction.Press then
                 c1.handle_right_button_displacement ((⟨x, y⟩ : Vec2) - c1.last_cursor_pos)
               else c1
             | none => c1) := by
        intro c1 h1
        cases c1.drag_button
        · exact h1
        · dsimp only
          split
          · rfl
          · exact h1
      have step1 : projViewConsistent
          (match c.rotate_button with
           | some rb =>
             if canvas.get_mouse_button rb == InputAction.Press then
               c.handle_left_button_displacement ((⟨x, y⟩ : Vec2) - c.last_cursor_pos)
             else c
           | none => c) := by
        cases c.rotate_button
        · exact h
        · dsimp only
          split
          · rfl
          · exact h
      exact step2 _ step1
    | Scroll xshift yshift => exact rfl
    | FramebufferSize w hgt => exact rfl
    | Other => exact h

theorem proj_view_product_invariant_witness :
    projViewConsistent cam0 ∧
    projViewConsistent (cam0.handle_event canvas0 WindowEvent.Other) := by
  have h : projViewConsistent cam0 := by
    show cam0.proj_view = cam0.proj * cam0.view
    show (0 : Matrix (Fin 4) (Fin 4) ℝ) = 0 * 0
    simp
  exact ⟨h, proj_view_product_invariant.2.2.2.2.2.2.2 cam0 canvas0 WindowEvent.Other h⟩


/-- C2 (amended): for any camera whose rotation quaternion is unit and any
`eye ≠ at`, `look_at(eye, at)` followed by `at()` returns the point at unit
distance from the eye along the direction towards `at` — i.e.
`eye + (at - eye)/‖at - eye‖` — which equals `at` exactly when
`‖at - eye‖ = 1`. -/
theorem look_at_at_roundtrip (c : FirstPerson)
    (hq : Quat.normSq c.coord_system.rotation_to_y_up = 1)
    (eye at_ : Vec3) (hne : eye ≠ at_) :
    (c.look_at eye at_).atPoint
      = eye + (1 / Vec3.norm (eye - at_)) • (at_ - eye) :=
  look_at_atPoint_aux c hq eye at_ hne

theorem look_at_at_roundtrip_witness :
    Quat.normSq cam0.coord_system.rotation_to_y_up = 1 ∧
    (⟨0, 0, 0⟩ : Vec3) ≠ ⟨0, 0, 2⟩ ∧
    (cam0.look_at ⟨0, 0, 0⟩ ⟨0, 0, 2⟩).atPoint
      = ⟨0, 0, 0⟩ + (1 / Vec3.norm ((⟨0, 0, 0⟩ : Vec3) - ⟨0, 0, 2⟩)) •
          ((⟨0, 0, 2⟩ : Vec3) - ⟨0, 0, 0⟩) := by
  have hne : (⟨0, 0, 0⟩ : Vec3) ≠ ⟨0, 0, 2⟩ := by
    intro h0
    have hz := congrArg Vec3.z h0
    norm_num at hz
  exact ⟨cam0_normSq, hne, look_at_at_roundtrip cam0 cam0_normSq ⟨0, 0, 0⟩ ⟨0, 0, 2⟩ hne⟩

/-- C2 counterexample: with `eye = (0,0,0)` and `at = (0,0,2)` (distance 2,
not directly above or below the eye), `look_at` followed by `at()` returns
`(0,0,1)`, not `at`. -/
theorem look_at_at_roundtrip_counterexample :
    (cam0.look_at ⟨0, 0, 0⟩ ⟨0, 0, 2⟩).atPoint ≠ ⟨0, 0, 2⟩ := by
  have hne : (⟨0, 0, 0⟩ : Vec3) ≠ ⟨0, 0, 2⟩ := by
    intro h0
    have hz := congrArg Vec3.z h0
    norm_num at hz
  have h := look_at_atPoint_aux cam0 cam0_normSq ⟨0, 0, 0⟩ ⟨0, 0, 2⟩ hne
  have hnorm : Vec3.norm ((⟨0, 0, 0⟩ : Vec3) - ⟨0, 0, 2⟩) = 2 := by
    simp only [Vec3.norm, Vec3.dot, Vec3.sub_x, Vec3.sub_y, Vec3.sub_z]
    norm_num
    rw [show (4 : ℝ) = 2 ^ 2 by norm_num, Real.sqrt_sq (by norm_num : (0 : ℝ) ≤ 2)]
  rw [h, hnorm]
  intro h0
  have hz := congrArg Vec3.z h0
  norm_num at hz

/-- C4: changing the up axis preserves the reconstructed look-at point:
for any camera state with a unit rotation quaternion and any new up-axis
direction, `set_up_axis_dir` followed by `at()` returns the pre-change
`at()`. -/
theorem set_up_axis_dir_preserves_at (c : FirstPerson)
    (hq : Quat.normSq c.coord_system.rotation_to_y_up = 1) (up : Vec3) :
    (c.set_up_axis_dir up).atPoint = c.atPoint := by
  unfold FirstPerson.set_up_axis_dir
  split
  · rfl
  · have hdot := atPoint_dist c hq
    have hdist : Vec3.norm (c.eye - c.atPoint) = 1 := by
      have hsym : Vec3.dot (c.eye - c.atPoint) (c.eye - c.atPoint)
          = Vec3.dot (c.atPoint - c.eye) (c.atPoint - c.eye) := by
        simp [Vec3.dot]
        ring
      rw [Vec3.norm, hsym, hdot, Real.sqrt_one]
    have hne : c.eye ≠ c.atPoint := by
      intro h0
      rw [h0] at hdist
      rw [(Vec3.sub_eq_zero_iff _ _).mpr rfl] at hdist
      simp [Vec3.norm, Vec3.dot] at hdist
    have hmain := look_at_atPoint_aux
        { c with coord_system := CoordSystemRh.from_up_axis up }
        (fromUpAxis_normSq up) c.eye c.atPoint hne
    rw [hmain, hdist]
    ext <;> simp

theorem set_up_axis_dir_preserves_at_witness :
    Quat.normSq cam0.coord_system.rotation_to_y_up = 1 ∧
    (cam0.set_up_axis_dir ⟨1, 0, 0⟩).atPoint = cam0.atPoint :=
  ⟨cam0_normSq, set_up_axis_dir_preserves_at cam0 cam0_normSq ⟨1, 0, 0⟩⟩

theorem new505_norm : Vec3.norm ((⟨0, 0, 5⟩ : Vec3) - ⟨0, 0, 0⟩) = 5 := by
  simp only [Vec3.norm, Vec3.dot, Vec3.sub_x, Vec3.sub_y, Vec3.sub_z]
  norm_num
  rw [show (25 : ℝ) = 5 ^ 2 by norm_num, Real.sqrt_sq (by norm_num : (0 : ℝ) ≤ 5)]

theorem new505_pitch : (FirstPerson.new ⟨0, 0, 5⟩ ⟨0, 0, 0⟩).pitch = π / 2 := by
  rw [new_pitch, new505_norm]
  norm_num [Real.arccos_zero]

theorem new505_yaw : (FirstPerson.new ⟨0, 0, 5⟩ ⟨0, 0, 0⟩).yaw = -(π / 2) := by
  rw [new_yaw]
  show Complex.arg ⟨(0 : ℝ) - 0, (0 : ℝ) - 5⟩ = -(π / 2)
  rw [Complex.arg_eq_neg_pi_div_two_iff]
  constructor <;> norm_num

theorem new505_eye_dir :
    (FirstPerson.new ⟨0, 0, 5⟩ ⟨0, 0, 0⟩).eye_dir = ⟨0, 0, -1⟩ := by
  have hat : (FirstPerson.new ⟨0, 0, 5⟩ ⟨0, 0, 0⟩).atPoint = ⟨0, 0, 4⟩ := by
    rw [atPoint_id _ (new_coord _ _), new505_pitch, new505_yaw]
    show ((⟨(⟨0, 0, 5⟩ : Vec3).x + Real.cos (-(π / 2)) * Real.sin (π / 2),
           (⟨0, 0, 5⟩ : Vec3).y + Real.cos (π / 2),
           (⟨0, 0, 5⟩ : Vec3).z + Real.sin (-(π / 2)) * Real.sin (π / 2)⟩ : Vec3)
          = ⟨0, 0, 4⟩)
    ext <;> norm_num [Real.cos_pi_div_two, Real.sin_pi_div_two]
  unfold FirstPerson.eye_dir
  rw [hat]
  show Vec3.normalize ((⟨0, 0, 4⟩ : Vec3) - ⟨0, 0, 5⟩) = ⟨0, 0, -1⟩
  have hsub : ((⟨0, 0, 4⟩ : Vec3) - ⟨0, 0, 5⟩) = ⟨0, 0, -1⟩ := by
    ext <;> norm_num
  rw [hsub]
  have hn : Vec3.norm (⟨0, 0, -1⟩ : Vec3) = 1 := by
    simp [Vec3.norm, Vec3.dot]
  unfold Vec3.normalize
  rw [hn]
  ext <;> norm_num

/-- C5 (amended): `new(eye=(0,0,5), at=(0,0,0))` with the default Y-up axis
yields `pitch = π/2` and `eye_dir() = (0,0,-1)`, but the yaw is
`atan2(-5, 0) = -π/2`, not `π`. -/
theorem new_scenario_values :
    (FirstPerson.new ⟨0, 0, 5⟩ ⟨0, 0, 0⟩).pitch = π / 2 ∧
    (FirstPerson.new ⟨0, 0, 5⟩ ⟨0, 0, 0⟩).yaw = -(π / 2) ∧
    (FirstPerson.new ⟨0, 0, 5⟩ ⟨0, 0, 0⟩).eye_dir = ⟨0, 0, -1⟩ :=
  ⟨new505_pitch, new505_yaw, new505_eye_dir⟩

/-- C5 counterexample: the yaw of `new(eye=(0,0,5), at=(0,0,0))` is
`-π/2`, which is not within any reasonable tolerance of the claimed `π`
(their distance is `3π/2 > 1`). -/
theorem new_scenario_yaw_counterexample :
    (FirstPerson.new ⟨0, 0, 5⟩ ⟨0, 0, 0⟩).yaw = -(π / 2) ∧
    ¬ |(FirstPerson.new ⟨0, 0, 5⟩ ⟨0, 0, 0⟩).yaw - π| ≤ 1 := by
  refine ⟨new505_yaw, ?_⟩
  rw [new505_yaw]
  have hpi := Real.pi_gt_three
  rw [abs_of_nonpos (by nlinarith)]
  intro hcon
  nlinarith

end
